import Mathlib

/-
Verification of the portal-based 2.5D renderer and sector movement controller.

The embedding below translates the renderer module (the sector/portal engine)
into Lean. JavaScript numbers are modelled as exact rationals. The
transcendental constants the source obtains from Math.sin / Math.cos /
Math.tan (the player's facing direction and the tangents of the half fields
of view) are passed as explicit rational parameters, so every theorem
quantifies over them or instantiates them with concrete rationals.
-/

namespace DoomPortal

attribute [local semireducible] Rat.add Rat.mul Rat.inv Rat.sub

/-- A 2-D vertex, as the source's objects of shape x, y. -/
structure Vec2 where
  x : ℚ
  y : ℚ
deriving DecidableEq

/-- A sector: floor and ceiling heights, boundary vertices, one neighbour
index per edge (-1 meaning a solid wall), and a wall colour. -/
structure Sector where
  floor : ℚ
  ceil : ℚ
  verts : List Vec2
  neighbours : List ℤ
  color : String
deriving DecidableEq

/-- The player record: position, eye height, facing angle, current sector. -/
structure Player where
  x : ℚ
  y : ℚ
  z : ℚ
  angle : ℚ
  sector : ℕ
deriving DecidableEq

/-- The key state object tracked by the input handlers. -/
structure Keys where
  w : Bool
  s : Bool
  a : Bool
  d : Bool
  up : Bool
  down : Bool
  left : Bool
  right : Bool
deriving DecidableEq

/-- The signed cross product computed per edge inside pointInPolygon:
(v2.x - v1.x) * (py - v1.y) - (v2.y - v1.y) * (px - v1.x). -/
def cross2 (v1 v2 : Vec2) (px py : ℚ) : ℚ :=
  (v2.x - v1.x) * (py - v1.y) - (v2.y - v1.y) * (px - v1.x)

/-- The list of boundary edges (verts[i], verts[(i+1) mod n]) traversed by the
source's index loops. -/
def edgePairs (verts : List Vec2) : List (Vec2 × Vec2) :=
  verts.zip (verts.rotate 1)

/-- The loop body of pointInPolygon, carrying the running sign (0 = not yet
set, else 1 or -1). -/
def pipGo (px py : ℚ) : ℤ → List (Vec2 × Vec2) → Bool
  | _, [] => true
  | sign, (v1, v2) :: rest =>
      let c := cross2 v1 v2 px py
      if c = 0 then pipGo px py sign rest
      else
        let sgn : ℤ := if 0 < c then 1 else -1
        if sign = 0 then pipGo px py sgn rest
        else if sgn ≠ sign then false
        else pipGo px py sign rest

/-- pointInPolygon from the source: winding test for a convex polygon. -/
def pointInPolygon (px py : ℚ) (verts : List Vec2) : Bool :=
  pipGo px py 0 (edgePairs verts)

/-- segmentIntersect from the source, verbatim: note the denominator is
(x4-x3)(y2-y1) - (y4-y3)(x2-x1). -/
def segmentIntersect (x1 y1 x2 y2 x3 y3 x4 y4 : ℚ) : Bool :=
  let denom := (x4 - x3) * (y2 - y1) - (y4 - y3) * (x2 - x1)
  if denom = 0 then false
  else
    let ua := ((x4 - x3) * (y1 - y3) - (y4 - y3) * (x1 - x3)) / denom
    let ub := ((x2 - x1) * (y1 - y3) - (y2 - y1) * (x1 - x3)) / denom
    decide (0 ≤ ua ∧ ua ≤ 1 ∧ 0 ≤ ub ∧ ub ≤ 1)

/-- Modelled from the spec: the standard parametric segment intersection of
section 4.1 ("computes intersection parameters ua, ub for segments p1-p2 and
p3-p4; returns true iff both parameters lie in [0,1]"). This is the spec-side
definition, compared against the source's segmentIntersect. -/
def segmentsIntersectSpec (x1 y1 x2 y2 x3 y3 x4 y4 : ℚ) : Bool :=
  let denom := (y4 - y3) * (x2 - x1) - (x4 - x3) * (y2 - y1)
  if denom = 0 then false
  else
    let ua := ((x4 - x3) * (y1 - y3) - (y4 - y3) * (x1 - x3)) / denom
    let ub := ((x2 - x1) * (y1 - y3) - (y2 - y1) * (x1 - x3)) / denom
    decide (0 ≤ ua ∧ ua ≤ 1 ∧ 0 ≤ ub ∧ ub ≤ 1)

/-- The two sequential conditional corrections applied to the player angle
after the rotation increment; pi stands for Math.PI. -/
def normalizeAngle (pi a : ℚ) : ℚ :=
  let a1 := if a < 0 then a + pi * 2 else a
  if pi * 2 ≤ a1 then a1 - pi * 2 else a1

/-- The rotation increment accumulated from the A/D and arrow keys;
the source's rotSpeed is Math.PI, passed here as pi. -/
def rotOf (pi : ℚ) (k : Keys) (dt : ℚ) : ℚ :=
  (if k.a || k.left then -(pi * dt) else 0) + (if k.d || k.right then pi * dt else 0)

/-- The displacement accumulated from the W/S and arrow keys; cosA and sinA
stand for Math.cos / Math.sin of the (already rotated) player angle, and
move for speed * dt. -/
def moveDelta (cosA sinA move : ℚ) (k : Keys) : ℚ × ℚ :=
  ((if k.w || k.up then cosA * move else 0) - (if k.s || k.down then cosA * move else 0),
   (if k.w || k.up then sinA * move else 0) - (if k.s || k.down then sinA * move else 0))

/-- Placeholder sector used for out-of-range sector lookups (the worlds in
all theorems keep indices in range). -/
def defaultSector : Sector := ⟨0, 0, [], [], ""⟩

/-- A sector's edges paired with their neighbour indices, in boundary order. -/
def sectorEdges (sec : Sector) : List (Vec2 × Vec2 × ℤ) :=
  ((sec.verts.zip (sec.verts.rotate 1)).zip sec.neighbours).map
    (fun p => (p.1.1, p.1.2, p.2))

/-- The portal-transition scan of updatePlayer: walk the edges in boundary
order, skip solid edges, and on an edge whose wall segment the movement
segment intersects (per the source's segmentIntersect) test the vertical
clearance; commit on success, otherwise keep scanning. -/
def portalScan (sectors : List Sector) (z px py nx ny : ℚ) :
    List (Vec2 × Vec2 × ℤ) → Option ℕ
  | [] => none
  | (v1, v2, nb) :: rest =>
      if nb < 0 then portalScan sectors z px py nx ny rest
      else if segmentIntersect px py nx ny v1.x v1.y v2.x v2.y then
        let ns := sectors.getD nb.toNat defaultSector
        if ns.floor < z ∧ z < ns.ceil then some nb.toNat
        else portalScan sectors z px py nx ny rest
      else portalScan sectors z px py nx ny rest

/-- updatePlayer from the source. pi stands for Math.PI; cosA and sinA for
Math.cos / Math.sin of the rotated angle; the source's speed constant is 3. -/
def updatePlayer (pi cosA sinA : ℚ) (sectors : List Sector) (k : Keys) (dt : ℚ)
    (p : Player) : Player :=
  let angle := normalizeAngle pi (p.angle + rotOf pi k dt)
  let d := moveDelta cosA sinA (3 * dt) k
  let newX := p.x + d.1
  let newY := p.y + d.2
  let current := sectors.getD p.sector defaultSector
  let inside := pointInPolygon newX newY current.verts
  let scan := if inside then none
              else portalScan sectors p.z p.x p.y newX newY (sectorEdges current)
  if inside || scan.isSome then
    Player.mk newX newY p.z angle (scan.getD p.sector)
  else
    Player.mk p.x p.y p.z angle p.sector

/-- The near-plane epsilon of render(). -/
def NEAR : ℚ := 1 / 10000

/-- A view-space edge after the near-plane clip step. -/
structure ClippedEdge where
  t1x : ℚ
  t1z : ℚ
  t2x : ℚ
  t2z : ℚ
deriving DecidableEq

/-- The near-plane clipping block of render(): skip the edge when both
depths are at or below NEAR; when exactly one is, replace an endpoint by the
interpolated crossing point. -/
def nearClip (t1x t1z t2x t2z : ℚ) : Option ClippedEdge :=
  if t1z ≤ NEAR ∧ t2z ≤ NEAR then none
  else if t1z ≤ NEAR ∨ t2z ≤ NEAR then
    let alpha := (NEAR - t1z) / (t2z - t1z)
    if t1z < NEAR then some ⟨t1x + (t2x - t1x) * alpha, NEAR, t2x, t2z⟩
    else some ⟨t1x, t1z, t1x + (t2x - t1x) * alpha, NEAR⟩
  else some ⟨t1x, t1z, t2x, t2z⟩

/-- Constant data render() reads: screen size, the tangents of the half
fields of view (Math.tan(HFOV/2), Math.tan(VFOV/2)), the player position and
eye height, and Math.sin(-angle), Math.cos(-angle). -/
structure RenderCfg where
  W : ℤ
  H : ℤ
  tanH : ℚ
  tanV : ℚ
  px : ℚ
  py : ℚ
  pz : ℚ
  sinA : ℚ
  cosA : ℚ
deriving DecidableEq

/-- Translate a vertex to player-relative coordinates and rotate by the
negated player angle, yielding (tx, tz). -/
def transform (cfg : RenderCfg) (v : Vec2) : ℚ × ℚ :=
  let p1x := v.x - cfg.px
  let p1y := v.y - cfg.py
  (p1x * cfg.cosA - p1y * cfg.sinA, p1x * cfg.sinA + p1y * cfg.cosA)

/-- Horizontal projection: floor(W/2 - tx*(W/2) / (tz * tanH)). -/
def projX (cfg : RenderCfg) (tx tz : ℚ) : ℤ :=
  Rat.floor ((cfg.W : ℚ) / 2 - tx * ((cfg.W : ℚ) / 2) / (tz * cfg.tanH))

/-- Vertical projection of an already depth-divided height:
floor(H/2 - yy*(H/2) / tanV). -/
def projY (cfg : RenderCfg) (yy : ℚ) : ℤ :=
  Rat.floor ((cfg.H : ℚ) / 2 - yy * ((cfg.H : ℚ) / 2) / cfg.tanV)

/-- lerp from the source. -/
def lerpQ (a b t : ℚ) : ℚ := a + (b - a) * t

/-- A portal-traversal work item: {sectorId, xl, xr}. -/
structure QEntry where
  sectorId : ℕ
  xl : ℤ
  xr : ℤ
deriving DecidableEq

/-- One ctx.fillRect call: x, y, width, height and fill colour. -/
structure PaintCmd where
  x : ℤ
  y : ℤ
  w : ℤ
  h : ℤ
  color : String
deriving DecidableEq

/-- The state threaded through render(): the two clip arrays, the work
queue, and the paint calls issued so far (most recent first). -/
structure RState where
  yTop : List ℤ
  yBottom : List ℤ
  queue : List QEntry
  output : List PaintCmd
deriving DecidableEq

/-- Transform and near-clip an edge, project its endpoints, and apply the
horizontal-span rejection test (sx2 < xl or sx1 > xr). -/
def edgeSpan (cfg : RenderCfg) (xl xr : ℤ) (v1 v2 : Vec2) :
    Option (ℤ × ℤ × ClippedEdge) :=
  let t1 := transform cfg v1
  let t2 := transform cfg v2
  match nearClip t1.1 t1.2 t2.1 t2.2 with
  | none => none
  | some ce =>
      let sx1 := projX cfg ce.t1x ce.t1z
      let sx2 := projX cfg ce.t2x ce.t2z
      if sx2 < xl ∨ sx1 > xr then none else some (sx1, sx2, ce)

/-- Clamp the drawable span to [xl, xr] and to the screen bounds, exactly as
the four clamping statements of the source. -/
def clampSpan (cfg : RenderCfg) (xl xr sx1 sx2 : ℤ) : ℤ × ℤ :=
  let xStart := max sx1 xl
  let xEnd := min sx2 xr
  (if xStart < 0 then 0 else xStart, if cfg.W ≤ xEnd then cfg.W - 1 else xEnd)

/-- The queue push performed at the end of an edge: enqueue the neighbour
with the clamped span when the edge is a portal and the span is non-empty.
This decision reads nothing from the clip arrays. -/
def edgeEnqueue (cfg : RenderCfg) (xl xr : ℤ) (v1 v2 : Vec2) (nb : ℤ) :
    Option QEntry :=
  match edgeSpan cfg xl xr v1 v2 with
  | none => none
  | some (sx1, sx2, _) =>
      let sp := clampSpan cfg xl xr sx1 sx2
      if 0 ≤ nb ∧ sp.1 ≤ sp.2 then some ⟨nb.toNat, sp.1, sp.2⟩ else none

/-- Per-edge interpolation data for the column loop. -/
structure ColCtx where
  color : String
  isPortal : Bool
  sx1 : ℤ
  dxv : ℤ
  sya1 : ℤ
  sya2 : ℤ
  syb1 : ℤ
  syb2 : ℤ
  snya1 : ℤ
  snya2 : ℤ
  snyb1 : ℤ
  snyb2 : ℤ
deriving DecidableEq

/-- Clip-array read, defaulting out-of-range indices (never hit by the
clamped spans) to 0. -/
def lget (l : List ℤ) (i : ℤ) : ℤ := l.getD i.toNat 0

/-- Clip-array write. -/
def lset (l : List ℤ) (i : ℤ) (v : ℤ) : List ℤ := l.set i.toNat v

/-- The body of the per-column loop of render(): interpolate and clamp the
wall slice, paint it if non-empty, and for a portal edge update the clip
arrays exactly as the source does: yTop[x] = max(yTop[x], nyb) and
yBottom[x] = min(yBottom[x], nya). -/
def colStep (c : ColCtx) (x : ℤ) (st : List ℤ × List ℤ × List PaintCmd) :
    List ℤ × List ℤ × List PaintCmd :=
  let yTop := st.1
  let yBottom := st.2.1
  let out := st.2.2
  let t : ℚ := if c.dxv ≠ 0 then ((x : ℚ) - (c.sx1 : ℚ)) / (c.dxv : ℚ) else 0
  let ya0 := Rat.floor (lerpQ (c.sya1 : ℚ) (c.sya2 : ℚ) t)
  let yb0 := Rat.floor (lerpQ (c.syb1 : ℚ) (c.syb2 : ℚ) t)
  let topX := lget yTop x
  let botX := lget yBottom x
  let ya := if ya0 < topX then topX else ya0
  let yb := if botX < yb0 then botX else yb0
  let out2 := if ya ≤ yb then ⟨x, ya, 1, yb - ya + 1, c.color⟩ :: out else out
  if c.isPortal then
    let nya0 := Rat.floor (lerpQ (c.snya1 : ℚ) (c.snya2 : ℚ) t)
    let nyb0 := Rat.floor (lerpQ (c.snyb1 : ℚ) (c.snyb2 : ℚ) t)
    let nya := if nya0 < topX then topX else nya0
    let nyb := if botX < nyb0 then botX else nyb0
    (lset yTop x (max topX nyb), lset yBottom x (min botX nya), out2)
  else (yTop, yBottom, out2)

/-- Run the column loop over n consecutive columns starting at x. -/
def colLoop (c : ColCtx) : ℕ → ℤ → (List ℤ × List ℤ × List PaintCmd) →
    List ℤ × List ℤ × List PaintCmd
  | 0, _, st => st
  | n + 1, x, st => colLoop c n (x + 1) (colStep c x st)

/-- The clip-and-paint work of one edge of the sector being processed. -/
def edgeColumns (cfg : RenderCfg) (sectors : List Sector) (sec : Sector)
    (xl xr : ℤ) (v1 v2 : Vec2) (nb : ℤ)
    (st : List ℤ × List ℤ × List PaintCmd) : List ℤ × List ℤ × List PaintCmd :=
  match edgeSpan cfg xl xr v1 v2 with
  | none => st
  | some (sx1, sx2, ce) =>
      let flr := sec.floor - cfg.pz
      let cl := sec.ceil - cfg.pz
      let nf := if 0 ≤ nb then (sectors.getD nb.toNat defaultSector).floor - cfg.pz else 0
      let nc := if 0 ≤ nb then (sectors.getD nb.toNat defaultSector).ceil - cfg.pz else 0
      let c : ColCtx :=
        ⟨sec.color, decide (0 ≤ nb), sx1, sx2 - sx1,
         projY cfg (cl / ce.t1z), projY cfg (cl / ce.t2z),
         projY cfg (flr / ce.t1z), projY cfg (flr / ce.t2z),
         projY cfg (nc / ce.t1z), projY cfg (nc / ce.t2z),
         projY cfg (nf / ce.t1z), projY cfg (nf / ce.t2z)⟩
      let sp := clampSpan cfg xl xr sx1 sx2
      colLoop c (sp.2 + 1 - sp.1).toNat sp.1 st

/-- All clip-array updates and paints of one queue entry, folding over the
sector's edges in boundary order. In the source this runs in the same edge
loop that pushes queue entries; the two interleaved parts exchange no data
(the push reads neither clip array, the columns read no queue), so they are
embedded as two folds over the same edge list. -/
def processEntry (cfg : RenderCfg) (sectors : List Sector) (e : QEntry)
    (st : List ℤ × List ℤ × List PaintCmd) : List ℤ × List ℤ × List PaintCmd :=
  let sec := sectors.getD e.sectorId defaultSector
  (sectorEdges sec).foldl
    (fun acc ed => edgeColumns cfg sectors sec e.xl e.xr ed.1 ed.2.1 ed.2.2 acc) st

/-- The queue entries pushed while processing one entry, in edge order. -/
def entryAdds (cfg : RenderCfg) (sectors : List Sector) (e : QEntry) : List QEntry :=
  (sectorEdges (sectors.getD e.sectorId defaultSector)).filterMap
    (fun ed => edgeEnqueue cfg e.xl e.xr ed.1 ed.2.1 ed.2.2)

/-- The queue evolution of one iteration of render()'s while loop:
shift the head entry, push its portal spans in edge order. -/
def queueStep (cfg : RenderCfg) (sectors : List Sector) : List QEntry → List QEntry
  | [] => []
  | e :: rest => rest ++ entryAdds cfg sectors e

/-- Iterate queueStep. -/
def queueIter (cfg : RenderCfg) (sectors : List Sector) : ℕ → List QEntry → List QEntry
  | 0, q => q
  | n + 1, q => queueIter cfg sectors n (queueStep cfg sectors q)

/-- One iteration of render()'s while loop on the full state. -/
def renderStep (cfg : RenderCfg) (sectors : List Sector) (st : RState) : RState :=
  match st.queue with
  | [] => st
  | e :: rest =>
      let r := processEntry cfg sectors e (st.yTop, st.yBottom, st.output)
      ⟨r.1, r.2.1, rest ++ entryAdds cfg sectors e, r.2.2⟩

/-- Iterate render()'s while loop a given number of times (the source runs
it until the queue empties; a state with an empty queue is a fixed point). -/
def renderLoop (cfg : RenderCfg) (sectors : List Sector) : ℕ → RState → RState
  | 0, st => st
  | n + 1, st => renderLoop cfg sectors n (renderStep cfg sectors st)

/-- The state at the top of render(): full-screen clear, clip arrays
initialised to 0 and H-1, queue holding the player's sector with the full
horizontal range. -/
def initRState (cfg : RenderCfg) (startSector : ℕ) : RState :=
  ⟨List.replicate cfg.W.toNat 0,
   List.replicate cfg.W.toNat (cfg.H - 1),
   [⟨startSector, 0, cfg.W - 1⟩],
   [⟨0, 0, cfg.W, cfg.H, "black"⟩]⟩

/-- The mutable globals render() can see: the player, the world, the key
state and the frame clock. render() reads only the player pose and sectors. -/
structure Env where
  player : Player
  sectors : List Sector
  keys : Keys
  lastTime : ℚ
deriving DecidableEq

/-- Build render()'s constant data from an environment. -/
def envCfg (w0 h0 : ℤ) (tanH tanV sinA cosA : ℚ) (e : Env) : RenderCfg :=
  ⟨w0, h0, tanH, tanV, e.player.x, e.player.y, e.player.z, sinA, cosA⟩

/-- One full render() call against an environment, returning the paint
trace after the given number of loop iterations. -/
def renderFromEnv (w0 h0 : ℤ) (tanH tanV sinA cosA : ℚ) (fuel : ℕ) (e : Env) :
    List PaintCmd :=
  (renderLoop (envCfg w0 h0 tanH tanV sinA cosA e) e.sectors fuel
    (initRState (envCfg w0 h0 tanH tanV sinA cosA e) e.player.sector)).output

/-- Modelled from the spec: the portal narrowing of section 4.3(g), where
the open range keeps the intersection of the previous open range with the
neighbour's projected ceiling-to-floor span: topClip is narrowed down to the
neighbour's clamped ceiling projection and bottomClip up to the neighbour's
clamped floor projection. -/
def clipNarrowSpec (topX botX nCeilY nFloorY : ℤ) : ℤ × ℤ :=
  (max topX nCeilY, min botX nFloorY)

/-- The three-sector world literal of the source. -/
def doomSectors : List Sector :=
  [⟨0, 3, [⟨0, 0⟩, ⟨10, 0⟩, ⟨10, 5⟩, ⟨0, 5⟩], [-1, 1, -1, -1], "#6c6"⟩,
   ⟨0, 3, [⟨10, 1⟩, ⟨14, 1⟩, ⟨14, 4⟩, ⟨10, 4⟩], [-1, 2, -1, 0], "#66c"⟩,
   ⟨0, 4, [⟨14, 0⟩, ⟨20, 0⟩, ⟨20, 6⟩, ⟨14, 6⟩], [-1, -1, -1, 1], "#c66"⟩]

/-- Forward key only. -/
def keysForward : Keys := ⟨true, false, false, false, false, false, false, false⟩

/-- Right-turn key only. -/
def keysRight : Keys := ⟨false, false, false, true, false, false, false, false⟩

/-- Forward and right-turn keys together. -/
def keysWD : Keys := ⟨true, false, false, true, false, false, false, false⟩

/-- Concrete render configuration: a 20 x 10 screen, rational approximations
of tan(HFOV/2) and tan(VFOV/2), and the pose (10, 5/2), eye height 1,
angle 0 (so sin(-angle) = 0 and cos(-angle) = 1). The point (10, 5/2) lies
on sector 0's east portal edge, which pointInPolygon counts as inside. -/
def cfgX : RenderCfg := ⟨20, 10, 577/1000, 268/1000, 10, 5/2, 1, 0, 1⟩

/-- Environment used for the render-determinism witness. -/
def envA : Env := ⟨⟨5, 5/2, 1, 0, 0⟩, doomSectors, keysForward, 0⟩

/-- Same pose and world as envA, different key state and clock. -/
def envB : Env := ⟨⟨5, 5/2, 1, 0, 0⟩, doomSectors, keysRight, 42⟩

/-- Claim C7 as stated: for every positive pi, nonnegative dt and starting
angle in [0, 2*pi), the angle produced by updatePlayer is again in
[0, 2*pi). -/
def angleAlwaysNormalized : Prop :=
  ∀ (pi cosA sinA dt : ℚ) (sectors : List Sector) (k : Keys) (p : Player),
    0 < pi → 0 ≤ dt → 0 ≤ p.angle → p.angle < 2 * pi →
    0 ≤ (updatePlayer pi cosA sinA sectors k dt p).angle ∧
      (updatePlayer pi cosA sinA sectors k dt p).angle < 2 * pi

/-- The angle field produced by updatePlayer is always the normalised sum of
the old angle and the rotation increment, whether or not the move commits. -/
theorem updatePlayer_angle (pi cosA sinA : ℚ) (sectors : List Sector) (k : Keys)
    (dt : ℚ) (p : Player) :
    (updatePlayer pi cosA sinA sectors k dt p).angle
      = normalizeAngle pi (p.angle + rotOf pi k dt) := by
  simp only [updatePlayer]
  split <;> split <;> rfl

/-- The two sequential corrections of normalizeAngle land in [0, 2*pi)
whenever the input angle is within one full turn of that interval. -/
theorem normalizeAngle_mem (pi x : ℚ) (hlo : -(2 * pi) < x) (hhi : x < 4 * pi) :
    0 ≤ normalizeAngle pi x ∧ normalizeAngle pi x < 2 * pi := by
  simp only [normalizeAngle]
  split_ifs <;> constructor <;> linarith

/-- Claim C9: updatePlayer never modifies the eye height: the z field of the
result equals the z field of the input for every world, key state, dt and
trigonometric values, including moves that commit through a portal. -/
theorem updatePlayer_preserves_z (pi cosA sinA : ℚ) (sectors : List Sector)
    (k : Keys) (dt : ℚ) (p : Player) :
    (updatePlayer pi cosA sinA sectors k dt p).z = p.z := by
  simp only [updatePlayer]
  split <;> split <;> rfl

/-- Claim C5: near-plane clip soundness. Whenever the clipping block of
render() keeps an edge (returns some), both resulting endpoint depths are at
least NEAR and in particular strictly positive, so the subsequent divisions
by depth in the projection formulas divide by a positive number. -/
theorem nearClip_depths_positive (t1x t1z t2x t2z : ℚ) (r : ClippedEdge)
    (h : nearClip t1x t1z t2x t2z = some r) :
    NEAR ≤ r.t1z ∧ NEAR ≤ r.t2z ∧ 0 < r.t1z ∧ 0 < r.t2z := by
  have hN : (0 : ℚ) < NEAR := by norm_num [NEAR]
  rcases le_or_lt t1z NEAR with ha | ha <;> rcases le_or_lt t2z NEAR with hb | hb
  · rw [nearClip, if_pos (And.intro ha hb)] at h
    exact Option.noConfusion h
  · have hn1 : ¬ (t1z ≤ NEAR ∧ t2z ≤ NEAR) := fun hc => absurd hc.2 (not_le.mpr hb)
    rcases ha.lt_or_eq with hlt | heq
    · simp only [nearClip, if_neg hn1, if_pos (Or.inl ha), if_pos hlt,
        Option.some.injEq] at h
      subst h
      exact ⟨le_refl _, hb.le, hN, lt_trans hN hb⟩
    · have hn3 : ¬ t1z < NEAR := not_lt.mpr heq.ge
      simp only [nearClip, if_neg hn1, if_pos (Or.inl ha), if_neg hn3,
        Option.some.injEq] at h
      subst h
      exact ⟨heq.ge, le_refl _, lt_of_lt_of_le hN heq.ge, hN⟩
  · have hn1 : ¬ (t1z ≤ NEAR ∧ t2z ≤ NEAR) := fun hc => absurd hc.1 (not_le.mpr ha)
    have hn3 : ¬ t1z < NEAR := not_lt.mpr ha.le
    simp only [nearClip, if_neg hn1, if_pos (Or.inr hb), if_neg hn3,
      Option.some.injEq] at h
    subst h
    exact ⟨ha.le, le_refl _, lt_trans hN ha, hN⟩
  · have hn1 : ¬ (t1z ≤ NEAR ∧ t2z ≤ NEAR) := fun hc => absurd hc.1 (not_le.mpr ha)
    have hn2 : ¬ (t1z ≤ NEAR ∨ t2z ≤ NEAR) :=
      fun hc => hc.elim (fun hx => absurd hx (not_le.mpr ha)) (fun hx => absurd hx (not_le.mpr hb))
    simp only [nearClip, if_neg hn1, if_neg hn2, Option.some.injEq] at h
    subst h
    exact ⟨ha.le, hb.le, lt_trans hN ha, lt_trans hN hb⟩

/-- Witness for C5: the east portal edge of sector 0 seen from (10, 5/2) has
one endpoint behind the viewer; after clipping both depths are positive. -/
theorem nearClip_depths_positive_w :
    NEAR ≤ (ClippedEdge.mk 0 (1/10000) 0 (5/2)).t1z ∧
      NEAR ≤ (ClippedEdge.mk 0 (1/10000) 0 (5/2)).t2z ∧
      0 < (ClippedEdge.mk 0 (1/10000) 0 (5/2)).t1z ∧
      0 < (ClippedEdge.mk 0 (1/10000) 0 (5/2)).t2z :=
  nearClip_depths_positive 0 (-(5/2)) 0 (5/2) ⟨0, 1/10000, 0, 5/2⟩ (by decide)

/-- Counterexample to claim C7 as stated: with pi = 3, a right turn held for
dt = 4 starting from angle 0 yields 12, and the single conditional
subtraction leaves 6 = 2*pi, which is outside [0, 2*pi). -/
theorem angle_norm_fails_large_dt : ¬ angleAlwaysNormalized := by
  intro h
  have h2 := (h 3 1 0 4 [] keysRight ⟨0, 0, 0, 0, 0⟩ (by norm_num) (by norm_num)
    (le_refl 0) (by norm_num)).2
  have h3 : (updatePlayer 3 1 0 [] keysRight 4 ⟨0, 0, 0, 0, 0⟩).angle = 6 := by decide
  rw [h3] at h2
  exact absurd h2 (by norm_num)

/-- Claim C7 as amended: the angle produced by updatePlayer lies in
[0, 2*pi) for every starting angle in [0, 2*pi) provided the per-tick
rotation magnitude pi * dt stays below a full turn (with the source's
rotSpeed = pi, this is dt < 2 seconds). -/
theorem updatePlayer_angle_normalized (pi cosA sinA dt : ℚ) (sectors : List Sector)
    (k : Keys) (p : Player) (hpi : 0 < pi) (hdt : 0 ≤ dt)
    (hsmall : pi * dt < 2 * pi) (h0 : 0 ≤ p.angle) (h1 : p.angle < 2 * pi) :
    0 ≤ (updatePlayer pi cosA sinA sectors k dt p).angle ∧
      (updatePlayer pi cosA sinA sectors k dt p).angle < 2 * pi := by
  rw [updatePlayer_angle]
  have hnn : 0 ≤ pi * dt := mul_nonneg hpi.le hdt
  refine normalizeAngle_mem pi _ ?_ ?_ <;>
    rcases hA : (k.a || k.left) with _ | _ <;>
    rcases hD : (k.d || k.right) with _ | _ <;>
    simp [rotOf, hA, hD] <;> linarith

/-- Witness for the amended C7: pi = 3, dt = 1, turning right from angle 0
lands at 3, inside [0, 6). -/
theorem updatePlayer_angle_normalized_w :
    0 ≤ (updatePlayer 3 1 0 [] keysRight 1 ⟨0, 0, 0, 0, 0⟩).angle ∧
      (updatePlayer 3 1 0 [] keysRight 1 ⟨0, 0, 0, 0, 0⟩).angle < 2 * 3 :=
  updatePlayer_angle_normalized 3 1 0 1 [] keysRight ⟨0, 0, 0, 0, 0⟩
    (by norm_num) (by norm_num) (by norm_num) (le_refl 0) (by norm_num)

/-- With the running sign set to 1, the loop accepts exactly when every
remaining cross product is nonnegative. -/
theorem pipGo_pos_iff (px py : ℚ) (l : List (Vec2 × Vec2)) :
    pipGo px py 1 l = true ↔ ∀ e ∈ l, 0 ≤ cross2 e.1 e.2 px py := by
  induction l with
  | nil => simp [pipGo]
  | cons e t ih =>
      obtain ⟨v1, v2⟩ := e
      rcases lt_trichotomy (cross2 v1 v2 px py) 0 with hneg | h0 | hpos
      · have hz : cross2 v1 v2 px py ≠ 0 := ne_of_lt hneg
        have hnlt : ¬ (0 < cross2 v1 v2 px py) := not_lt.mpr hneg.le
        have hnle : ¬ (0 ≤ cross2 v1 v2 px py) := not_le.mpr hneg
        simp [pipGo, hz, hnlt, hnle]
      · simp [pipGo, h0, ih]
      · have hz : cross2 v1 v2 px py ≠ 0 := (ne_of_gt hpos)
        simp [pipGo, hz, hpos, hpos.le, ih]

/-- With the running sign set to -1, the loop accepts exactly when every
remaining cross product is nonpositive. -/
theorem pipGo_neg_iff (px py : ℚ) (l : List (Vec2 × Vec2)) :
    pipGo px py (-1) l = true ↔ ∀ e ∈ l, cross2 e.1 e.2 px py ≤ 0 := by
  induction l with
  | nil => simp [pipGo]
  | cons e t ih =>
      obtain ⟨v1, v2⟩ := e
      rcases lt_trichotomy (cross2 v1 v2 px py) 0 with hneg | h0 | hpos
      · have hz : cross2 v1 v2 px py ≠ 0 := ne_of_lt hneg
        have hnlt : ¬ (0 < cross2 v1 v2 px py) := not_lt.mpr hneg.le
        simp [pipGo, hz, hnlt, hneg.le, ih]
      · simp [pipGo, h0, ih]
      · have hz : cross2 v1 v2 px py ≠ 0 := (ne_of_gt hpos)
        have hnle : ¬ (cross2 v1 v2 px py ≤ 0) := not_le.mpr hpos
        simp [pipGo, hz, hpos, hnle]

/-- With the sign not yet set, the loop accepts exactly when the cross
products are all nonnegative or all nonpositive. -/
theorem pipGo_zero_iff (px py : ℚ) (l : List (Vec2 × Vec2)) :
    pipGo px py 0 l = true ↔
      ((∀ e ∈ l, 0 ≤ cross2 e.1 e.2 px py) ∨ (∀ e ∈ l, cross2 e.1 e.2 px py ≤ 0)) := by
  induction l with
  | nil => simp [pipGo]
  | cons e t ih =>
      obtain ⟨v1, v2⟩ := e
      rcases lt_trichotomy (cross2 v1 v2 px py) 0 with hneg | h0 | hpos
      · have hz : cross2 v1 v2 px py ≠ 0 := ne_of_lt hneg
        have hnlt : ¬ (0 < cross2 v1 v2 px py) := not_lt.mpr hneg.le
        have hnle : ¬ (0 ≤ cross2 v1 v2 px py) := not_le.mpr hneg
        simp [pipGo, hz, hnlt, hneg.le, hnle, pipGo_neg_iff]
      · simp [pipGo, h0, ih]
      · have hz : cross2 v1 v2 px py ≠ 0 := (ne_of_gt hpos)
        have hnle : ¬ (cross2 v1 v2 px py ≤ 0) := not_le.mpr hpos
        simp [pipGo, hz, hpos, hpos.le, hnle, pipGo_pos_iff]

/-- Claim C6: pointInPolygon returns true iff all nonzero signed cross
products of each edge direction with the vector from the edge start to the
point agree in sign; a zero cross product never causes rejection, so points
exactly on an edge line are reported inside. -/
theorem pointInPolygon_iff_crosses_agree (px py : ℚ) (verts : List Vec2) :
    pointInPolygon px py verts = true ↔
      ((∀ e ∈ edgePairs verts, cross2 e.1 e.2 px py ≠ 0 → 0 < cross2 e.1 e.2 px py) ∨
       (∀ e ∈ edgePairs verts, cross2 e.1 e.2 px py ≠ 0 → cross2 e.1 e.2 px py < 0)) := by
  unfold pointInPolygon
  rw [pipGo_zero_iff]
  have hgen : ∀ c : ℚ, (c ≠ 0 → 0 < c) ↔ 0 ≤ c := by
    intro c
    constructor
    · intro hc
      rcases eq_or_ne c 0 with h | h
      · exact h.ge
      · exact (hc h).le
    · intro hc h
      exact lt_of_le_of_ne hc (Ne.symm h)
  have hgen2 : ∀ c : ℚ, (c ≠ 0 → c < 0) ↔ c ≤ 0 := by
    intro c
    constructor
    · intro hc
      rcases eq_or_ne c 0 with h | h
      · exact h.le
      · exact (hc h).le
    · intro hc h
      exact lt_of_le_of_ne hc h
  constructor
  · rintro (hall | hall)
    · exact Or.inl (fun e he => (hgen _).mpr (hall e he))
    · exact Or.inr (fun e he => (hgen2 _).mpr (hall e he))
  · rintro (hall | hall)
    · exact Or.inl (fun e he => (hgen _).mp (hall e he))
    · exact Or.inr (fun e he => (hgen2 _).mp (hall e he))

/-- Witness for C6: the player start position (5, 5/2) is inside sector 0,
via the all-crosses-positive direction of the characterisation. -/
theorem pointInPolygon_iff_crosses_agree_w :
    pointInPolygon 5 (5/2) (doomSectors.getD 0 defaultSector).verts = true :=
  (pointInPolygon_iff_crosses_agree 5 (5/2) (doomSectors.getD 0 defaultSector).verts).mpr
    (Or.inl (by decide))

/-- Claim C1 (failing input): in the three-sector world of the source, the
viewer at (10, 0) - the portal-edge corner of sector 0, which pointInPolygon
counts as inside - moving one unit east commits through the portal into
sector 1, yet the committed position (11, 0) is outside sector 1's boundary:
the containment invariant is violated by updatePlayer. -/
theorem containment_broken_by_portal_corner :
    pointInPolygon 10 0 (doomSectors.getD 0 defaultSector).verts = true ∧
    updatePlayer 3 1 0 doomSectors keysForward (1/3) ⟨10, 0, 1, 0, 0⟩
      = ⟨11, 0, 1, 0, 1⟩ ∧
    pointInPolygon 11 0 (doomSectors.getD 1 defaultSector).verts = false := by
  refine ⟨by decide, by decide, by decide⟩

/-- Claim C3 (failing input): the movement segment from (9, 5/2) to
(11, 5/2) crosses sector 0's east portal edge (the standard intersection
parameters are both 1/2) and the vertical clearance for sector 1 holds, yet
the source's segmentIntersect - whose denominator is the negation of the
standard one, so its parameters are the negated standard parameters -
returns false, and updatePlayer rejects the move instead of committing to
sector 1. -/
theorem portal_cross_rejected :
    segmentsIntersectSpec 9 (5/2) 11 (5/2) 10 0 10 5 = true ∧
    segmentIntersect 9 (5/2) 11 (5/2) 10 0 10 5 = false ∧
    ((doomSectors.getD 1 defaultSector).floor < 1 ∧
      (1 : ℚ) < (doomSectors.getD 1 defaultSector).ceil) ∧
    updatePlayer 3 1 0 doomSectors keysForward (2/3) ⟨9, 5/2, 1, 0, 0⟩
      = ⟨9, 5/2, 1, 0, 0⟩ := by
  refine ⟨by decide, by decide, by decide, by decide⟩

/-- Claim C10: the rotation always lands in the angle field (it is applied
before the collision decision), and whenever the candidate position is
outside the current sector and the portal scan finds no committing edge,
the position and sector are left exactly unchanged. -/
theorem rotation_independent_of_collision (pi cosA sinA dt : ℚ)
    (sectors : List Sector) (k : Keys) (p : Player)
    (hin : pointInPolygon (p.x + (moveDelta cosA sinA (3 * dt) k).1)
        (p.y + (moveDelta cosA sinA (3 * dt) k).2)
        (sectors.getD p.sector defaultSector).verts = false)
    (hscan : portalScan sectors p.z p.x p.y
        (p.x + (moveDelta cosA sinA (3 * dt) k).1)
        (p.y + (moveDelta cosA sinA (3 * dt) k).2)
        (sectorEdges (sectors.getD p.sector defaultSector)) = none) :
    (updatePlayer pi cosA sinA sectors k dt p).angle
        = normalizeAngle pi (p.angle + rotOf pi k dt) ∧
    (updatePlayer pi cosA sinA sectors k dt p).x = p.x ∧
    (updatePlayer pi cosA sinA sectors k dt p).y = p.y ∧
    (updatePlayer pi cosA sinA sectors k dt p).sector = p.sector := by
  refine ⟨updatePlayer_angle pi cosA sinA sectors k dt p, ?_, ?_, ?_⟩ <;>
    · simp only [updatePlayer, hin, hscan]
      simp

/-- Witness for C10: at (5, 5/2) in sector 0, holding forward and
right-turn with displacement (0, 3) runs into the solid north wall: the
move is rejected while the angle still turns to 3. -/
theorem rotation_independent_of_collision_w :
    (updatePlayer 3 0 1 doomSectors keysWD 1 ⟨5, 5/2, 1, 0, 0⟩).angle
        = normalizeAngle 3 ((⟨5, 5/2, 1, 0, 0⟩ : Player).angle + rotOf 3 keysWD 1) ∧
    (updatePlayer 3 0 1 doomSectors keysWD 1 ⟨5, 5/2, 1, 0, 0⟩).x
        = (⟨5, 5/2, 1, 0, 0⟩ : Player).x ∧
    (updatePlayer 3 0 1 doomSectors keysWD 1 ⟨5, 5/2, 1, 0, 0⟩).y
        = (⟨5, 5/2, 1, 0, 0⟩ : Player).y ∧
    (updatePlayer 3 0 1 doomSectors keysWD 1 ⟨5, 5/2, 1, 0, 0⟩).sector
        = (⟨5, 5/2, 1, 0, 0⟩ : Player).sector :=
  rotation_independent_of_collision 3 0 1 1 doomSectors keysWD ⟨5, 5/2, 1, 0, 0⟩
    (by decide) (by decide)

/-- The queue field of one renderStep iteration evolves by queueStep: the
enqueue decisions read nothing from the clip arrays or the paint trace. -/
theorem renderStep_queue (cfg : RenderCfg) (sectors : List Sector) (st : RState) :
    (renderStep cfg sectors st).queue = queueStep cfg sectors st.queue := by
  cases st with
  | mk yT yB q out => cases q <;> rfl

/-- The queue after n iterations of the render loop is the n-fold queueStep
iterate of the initial queue. -/
theorem renderLoop_queue (cfg : RenderCfg) (sectors : List Sector) (n : ℕ) :
    ∀ st : RState,
      (renderLoop cfg sectors n st).queue = queueIter cfg sectors n st.queue := by
  induction n with
  | zero => intro st; rfl
  | succ m ih =>
      intro st
      show (renderLoop cfg sectors m (renderStep cfg sectors st)).queue = _
      rw [ih, renderStep_queue]
      rfl

/-- From either of the two one-entry queues of the ping-pong cycle, every
queueStep iterate is again one of them. -/
theorem queue_cycle_inv (m : ℕ) :
    ∀ q : List QEntry, (q = [⟨1, 10, 10⟩] ∨ q = [⟨0, 10, 10⟩]) →
      (queueIter cfgX doomSectors m q = [⟨1, 10, 10⟩] ∨
        queueIter cfgX doomSectors m q = [⟨0, 10, 10⟩]) := by
  induction m with
  | zero => intro q h; simpa [queueIter] using h
  | succ k ih =>
      intro q h
      have hstep : queueStep cfgX doomSectors q = [(⟨0, 10, 10⟩ : QEntry)] ∨
          queueStep cfgX doomSectors q = [(⟨1, 10, 10⟩ : QEntry)] := by
        rcases h with h | h <;> subst h
        · exact Or.inl (by decide)
        · exact Or.inr (by decide)
      have hq : queueIter cfgX doomSectors (k + 1) q
          = queueIter cfgX doomSectors k (queueStep cfgX doomSectors q) := rfl
      rw [hq]
      rcases hstep with h1 | h1 <;> rw [h1]
      · exact ih _ (Or.inr rfl)
      · exact ih _ (Or.inl rfl)

/-- Claim C2 (failing input): at the pose (10, 5/2) - on sector 0's east
portal edge, a position the containment predicate accepts - the work queue
inside render() is never drained: sectors 0 and 1 enqueue each other through
the one-column span [10, 10] forever, for every number of loop iterations. -/
theorem render_queue_never_drains (n : ℕ) :
    (renderLoop cfgX doomSectors n (initRState cfgX 0)).queue ≠ [] := by
  rw [renderLoop_queue]
  cases n with
  | zero => decide
  | succ m =>
      have h1 : queueStep cfgX doomSectors (initRState cfgX 0).queue
          = [(⟨1, 10, 10⟩ : QEntry)] := by decide
      show queueIter cfgX doomSectors m
          (queueStep cfgX doomSectors (initRState cfgX 0).queue) ≠ []
      rw [h1]
      rcases queue_cycle_inv m [⟨1, 10, 10⟩] (Or.inl rfl) with h | h <;>
        rw [h] <;> simp

/-- Claim C4 (failing input): processing the first queue entry at the same
concrete pose handles the portal column x = 10, whose previous open range is
[0, 9] and whose clamped neighbour ceiling/floor projections are 0 and 9, so
the spec narrowing leaves [0, 9] open; the code instead stores the swapped
pair, leaving yTop[10] = 9 and yBottom[10] = 0 - an inverted, fully occluded
column in place of the portal opening. -/
theorem portal_clip_swapped :
    lget (renderLoop cfgX doomSectors 1 (initRState cfgX 0)).yTop 10 = 9 ∧
    lget (renderLoop cfgX doomSectors 1 (initRState cfgX 0)).yBottom 10 = 0 ∧
    clipNarrowSpec 0 9 0 9 = (0, 9) := by
  refine ⟨by decide, by decide, by decide⟩

/-- Claim C8: the paint trace of render() is a pure function of the viewer
pose and the sector graph: two environments that agree on the player and the
sectors - whatever their key state and frame clock, and with the per-column
clip arrays rebuilt inside every call - produce identical output. -/
theorem render_pure_of_pose (w0 h0 : ℤ) (tanH tanV sinA cosA : ℚ) (fuel : ℕ)
    (e1 e2 : Env) (hp : e1.player = e2.player) (hs : e1.sectors = e2.sectors) :
    renderFromEnv w0 h0 tanH tanV sinA cosA fuel e1
      = renderFromEnv w0 h0 tanH tanV sinA cosA fuel e2 := by
  simp only [renderFromEnv, envCfg, hp, hs]

/-- Witness for C8: two environments sharing the start pose and the
three-sector world but with different key state and clock render the same
trace. -/
theorem render_pure_of_pose_w :
    renderFromEnv 20 10 (577/1000) (268/1000) 0 1 2 envA
      = renderFromEnv 20 10 (577/1000) (268/1000) 0 1 2 envB :=
  render_pure_of_pose 20 10 (577/1000) (268/1000) 0 1 2 envA envB rfl rfl

end DoomPortal
